import Mathlib

/-!
# Verification of the vte state-table code generator

Shallow embedding of `src/codegen/src/ext/vt.rs`: the symbolic state and
action enumerations, the transition encoder (`Transition::pack_u8`,
`Transition::from_expr`), the input-pattern resolver
(`InputDefinition::from_pat`) and the table builder (`build_state_tables`),
together with theorems about them.

Machine integers (`u8`) are modelled as `Nat` with `% 256` at the points
where the Rust code truncates (`val as u8`); array indexing becomes
`List.set` / `List.getElem?` on lists whose lengths mirror the fixed
`[[u8; 256]; 16]` dimensions.
-/

set_option autoImplicit false

namespace Vt

/-- Modelled from the spec: the 16 parser states of `definitions.rs` (the
file referenced by `#[path]` from vt.rs but outside the reviewed sources).
The spec fixes 16 states representable in 4 bits with one designated
state of numeric value 0; the constructor order follows the match arms of
`state_from_str` in vt.rs, consistent with the spec's concrete example
(`CsiParam` = 4). -/
inductive State
  | Anywhere
  | CsiEntry
  | CsiIgnore
  | CsiIntermediate
  | CsiParam
  | DcsEntry
  | DcsIgnore
  | DcsIntermediate
  | DcsParam
  | DcsPassthrough
  | Escape
  | EscapeIntermediate
  | Ground
  | OscString
  | SosPmApcString
  | Utf8
  deriving DecidableEq, Fintype, Repr

/-- Modelled from the spec: the 16 parser actions of `definitions.rs`.
The spec fixes 16 actions representable in 4 bits with a no-op action of
numeric value 0; the constructor order follows the match arms of
`action_from_str` in vt.rs, consistent with the spec's concrete example
(`Collect` = 2). -/
inductive Action
  | None
  | Clear
  | Collect
  | CsiDispatch
  | EscDispatch
  | Execute
  | Hook
  | Ignore
  | OscEnd
  | OscPut
  | OscStart
  | Param
  | Print
  | Put
  | Unhook
  | BeginUtf8
  deriving DecidableEq, Fintype, Repr

/-- Modelled from the spec: the numeric code of a state (`state as u8` in
vt.rs), i.e. the discriminant assigned by declaration order. -/
def State.code : State → Nat
  | .Anywhere => 0
  | .CsiEntry => 1
  | .CsiIgnore => 2
  | .CsiIntermediate => 3
  | .CsiParam => 4
  | .DcsEntry => 5
  | .DcsIgnore => 6
  | .DcsIntermediate => 7
  | .DcsParam => 8
  | .DcsPassthrough => 9
  | .Escape => 10
  | .EscapeIntermediate => 11
  | .Ground => 12
  | .OscString => 13
  | .SosPmApcString => 14
  | .Utf8 => 15

/-- Modelled from the spec: the numeric code of an action (`action as u8`
in vt.rs). -/
def Action.code : Action → Nat
  | .None => 0
  | .Clear => 1
  | .Collect => 2
  | .CsiDispatch => 3
  | .EscDispatch => 4
  | .Execute => 5
  | .Hook => 6
  | .Ignore => 7
  | .OscEnd => 8
  | .OscPut => 9
  | .OscStart => 10
  | .Param => 11
  | .Print => 12
  | .Put => 13
  | .Unhook => 14
  | .BeginUtf8 => 15

/-- `state_from_str` from vt.rs: textual path to `State`, `Err` modelled
as `none`. -/
def state_from_str (s : String) : Option State :=
  match s with
  | "State::Anywhere" => some .Anywhere
  | "State::CsiEntry" => some .CsiEntry
  | "State::CsiIgnore" => some .CsiIgnore
  | "State::CsiIntermediate" => some .CsiIntermediate
  | "State::CsiParam" => some .CsiParam
  | "State::DcsEntry" => some .DcsEntry
  | "State::DcsIgnore" => some .DcsIgnore
  | "State::DcsIntermediate" => some .DcsIntermediate
  | "State::DcsParam" => some .DcsParam
  | "State::DcsPassthrough" => some .DcsPassthrough
  | "State::Escape" => some .Escape
  | "State::EscapeIntermediate" => some .EscapeIntermediate
  | "State::Ground" => some .Ground
  | "State::OscString" => some .OscString
  | "State::SosPmApcString" => some .SosPmApcString
  | "State::Utf8" => some .Utf8
  | _ => none

/-- `action_from_str` from vt.rs: textual path to `Action`, `Err` modelled
as `none`. -/
def action_from_str (s : String) : Option Action :=
  match s with
  | "Action::None" => some .None
  | "Action::Clear" => some .Clear
  | "Action::Collect" => some .Collect
  | "Action::CsiDispatch" => some .CsiDispatch
  | "Action::EscDispatch" => some .EscDispatch
  | "Action::Execute" => some .Execute
  | "Action::Hook" => some .Hook
  | "Action::Ignore" => some .Ignore
  | "Action::OscEnd" => some .OscEnd
  | "Action::OscPut" => some .OscPut
  | "Action::OscStart" => some .OscStart
  | "Action::Param" => some .Param
  | "Action::Print" => some .Print
  | "Action::Put" => some .Put
  | "Action::Unhook" => some .Unhook
  | "Action::BeginUtf8" => some .BeginUtf8
  | _ => none

/-- The `Transition` enum of vt.rs: a destination state, an action, or
both. -/
inductive Transition
  | state (s : State)
  | action (a : Action)
  | stateAction (s : State) (a : Action)
  deriving DecidableEq, Repr

/-- `Transition::pack_u8` from vt.rs: the action occupies the top 4 bits,
the state the low 4 bits; `u8` arithmetic is `Nat` with `% 256`. -/
def Transition.pack_u8 : Transition → Nat
  | .state s => s.code % 256
  | .action a => (a.code <<< 4) % 256
  | .stateAction s a => ((a.code <<< 4) ||| s.code) % 256

/-- The fragment of the syntex expression AST that `Transition::from_expr`
inspects: a path (rendered to its string), a tuple of sub-expressions, or
any other expression kind. -/
inductive VtExpr
  | path (s : String)
  | tup (es : List VtExpr)
  | other

/-- Whether an expression node is a path (used to state which tuple
elements `from_expr` reacts to). -/
def VtExpr.isPath : VtExpr → Bool
  | .path _ => true
  | _ => false

/-- `path_str.starts_with('A')` from vt.rs. -/
def starts_with_A (s : String) : Bool :=
  match s.data with
  | [] => false
  | c :: _ => c == 'A'

/-- The `for tup_expr in tup_exprs` loop of `Transition::from_expr`:
walks the tuple elements left to right, recording the most recent action
symbol and the most recent state symbol; a path failing symbol resolution
aborts with the error emitted by the Rust code (`try!` early return);
non-path elements are skipped by the `if let`. -/
def from_expr_tuple_loop :
    List VtExpr → Option Action → Option State →
    Except String (Option Action × Option State)
  | [], action, state => .ok (action, state)
  | .path p :: rest, action, state =>
      if starts_with_A p then
        match action_from_str p with
        | some a => from_expr_tuple_loop rest (some a) state
        | none => .error "invalid action"
      else
        match state_from_str p with
        | some s => from_expr_tuple_loop rest action (some s)
        | none => .error "invalid state"
  | .tup _ :: rest, action, state => from_expr_tuple_loop rest action state
  | .other :: rest, action, state => from_expr_tuple_loop rest action state

/-- `Transition::from_expr` from vt.rs; `Err(())` after `cx.span_err(msg)`
is modelled as `Except.error msg`. -/
def Transition.from_expr (expr : VtExpr) : Except String Transition :=
  match expr with
  | .tup tup_exprs =>
      match from_expr_tuple_loop tup_exprs none none with
      | .error e => .error e
      | .ok (act, st) =>
          match act, st with
          | some a, some s => .ok (.stateAction s a)
          | .none, some s => .ok (.state s)
          | some a, .none => .ok (.action a)
          | .none, .none => .error "expected Action and/or State"
  | .path p =>
      if starts_with_A p then
        match action_from_str p with
        | some a => .ok (.action a)
        | none => .error "invalid action"
      else
        match state_from_str p with
        | some s => .ok (.state s)
        | none => .error "invalid state"
  | .other => .error "expected Action and/or State"

/-- The `InputDefinition` enum of vt.rs: a specific byte or a range; the
`u8` fields become `Nat` (the values produced by `from_pat` are `< 256`).
The Rust field `end` is `stop` here (`end` is a Lean keyword). -/
inductive InputDefinition
  | Specific (idx : Nat)
  | Range (start stop : Nat)
  deriving DecidableEq, Repr

/-- The fragment of the syntex pattern AST that `InputDefinition::from_pat`
inspects: an integer-literal pattern (the literal already resolved to its
integer, as `u8_lit_from_expr` does), an integer range pattern, or any
other pattern kind. -/
inductive VtPat
  | lit (val : Nat)
  | range (start stop : Nat)
  | other
  deriving DecidableEq, Repr

/-- `InputDefinition::from_pat` from vt.rs; `val as u8` is `% 256`. -/
def InputDefinition.from_pat (pat : VtPat) : Except String InputDefinition :=
  match pat with
  | .lit v => .ok (.Specific (v % 256))
  | .range a b => .ok (.Range (a % 256) (b % 256))
  | .other => .error "expected literal or range expression"

/-- The `InputMapping` struct of vt.rs. -/
structure InputMapping where
  input : InputDefinition
  transition : Transition
  deriving DecidableEq, Repr

/-- The `TableDefinition` struct of vt.rs (one parsed state block). -/
structure TableDefinition where
  state : State
  mappings : List InputMapping
  deriving DecidableEq, Repr

/-- The body of the `match mapping.input` in `build_state_tables`: write
`trans` at a specific index, or run the Rust loop `for idx in start..end`
(the half-open range `List.range' start (stop - start)`) followed by the
separate write at `end`. -/
def applyInput (transitions : List Nat) (input : InputDefinition)
    (trans : Nat) : List Nat :=
  match input with
  | .Specific idx => transitions.set idx trans
  | .Range start stop =>
      ((List.range' start (stop - start)).foldl
        (fun row idx => row.set idx trans) transitions).set stop trans

/-- The body of the `for mapping in &def.mappings` loop of
`build_state_tables`. -/
def applyMapping (transitions : List Nat) (mapping : InputMapping) :
    List Nat :=
  applyInput transitions mapping.input mapping.transition.pack_u8

/-- The body of the `for def in defs.as_ref()` loop of
`build_state_tables`: take the mutable borrow of the row selected by the
state's code, run all mappings over it, and put it back. -/
def processDef (result : List (List Nat)) (d : TableDefinition) :
    List (List Nat) :=
  result.set d.state.code
    (d.mappings.foldl applyMapping (result.getD d.state.code []))

/-- `build_state_tables` from vt.rs: start from `[[0u8; 256]; 16]` and,
for each definition in order, mutate the row selected by the state's code
by processing its mappings in order. -/
def build_state_tables (defs : List TableDefinition) : List (List Nat) :=
  defs.foldl processDef (List.replicate 16 (List.replicate 256 0))

/-- Cell lookup in a built table: row `s`, column `b`. -/
def cellOf (table : List (List Nat)) (s b : Nat) : Option Nat :=
  table[s]?.bind fun row => row[b]?

/-- The set of bytes an input pattern writes to, read off from the two
`match mapping.input` arms of `build_state_tables`: a specific index hits
exactly itself; a range hits the half-open `start..stop` plus `stop`. -/
def InputDefinition.covers : InputDefinition → Nat → Bool
  | .Specific idx, b => b == idx
  | .Range start stop, b =>
      (decide (start ≤ b) && decide (b < stop)) || b == stop

/-- One step of the per-byte history of a row cell: a covering mapping
overwrites the accumulator with its packed byte. -/
def ruleFold (b : Nat) (acc : Option Nat) (m : InputMapping) : Option Nat :=
  if m.input.covers b then some m.transition.pack_u8 else acc

/-- One step of the per-byte history of a table cell: a definition for
state `s` folds its mappings over the accumulator, any other definition
leaves it alone. -/
def defFold (s b : Nat) (acc : Option Nat) (d : TableDefinition) :
    Option Nat :=
  if d.state.code = s then d.mappings.foldl (ruleFold b) acc else acc

/-- The canonical path string of a state, exactly the strings matched by
`state_from_str`; used to quantify over the valid state symbols. -/
def State.path_str : State → String
  | .Anywhere => "State::Anywhere"
  | .CsiEntry => "State::CsiEntry"
  | .CsiIgnore => "State::CsiIgnore"
  | .CsiIntermediate => "State::CsiIntermediate"
  | .CsiParam => "State::CsiParam"
  | .DcsEntry => "State::DcsEntry"
  | .DcsIgnore => "State::DcsIgnore"
  | .DcsIntermediate => "State::DcsIntermediate"
  | .DcsParam => "State::DcsParam"
  | .DcsPassthrough => "State::DcsPassthrough"
  | .Escape => "State::Escape"
  | .EscapeIntermediate => "State::EscapeIntermediate"
  | .Ground => "State::Ground"
  | .OscString => "State::OscString"
  | .SosPmApcString => "State::SosPmApcString"
  | .Utf8 => "State::Utf8"

/-- The canonical path string of an action, exactly the strings matched by
`action_from_str`; used to quantify over the valid action symbols. -/
def Action.path_str : Action → String
  | .None => "Action::None"
  | .Clear => "Action::Clear"
  | .Collect => "Action::Collect"
  | .CsiDispatch => "Action::CsiDispatch"
  | .EscDispatch => "Action::EscDispatch"
  | .Execute => "Action::Execute"
  | .Hook => "Action::Hook"
  | .Ignore => "Action::Ignore"
  | .OscEnd => "Action::OscEnd"
  | .OscPut => "Action::OscPut"
  | .OscStart => "Action::OscStart"
  | .Param => "Action::Param"
  | .Print => "Action::Print"
  | .Put => "Action::Put"
  | .Unhook => "Action::Unhook"
  | .BeginUtf8 => "Action::BeginUtf8"

/-- A table has the fixed `[[u8; 256]; 16]` dimensions. -/
def Shaped (table : List (List Nat)) : Prop :=
  table.length = 16 ∧ ∀ row ∈ table, row.length = 256

/-- Every state code fits in the low nibble. -/
theorem state_code_lt (s : State) : s.code < 16 := by
  cases s <;> decide

/-- Every action code fits in a nibble. -/
theorem action_code_lt (a : Action) : a.code < 16 := by
  cases a <;> decide

/-- Writing one value at a list of indices preserves the length. -/
theorem foldl_set_length (ixs : List Nat) (row : List Nat) (v : Nat) :
    (ixs.foldl (fun r i => r.set i v) row).length = row.length := by
  induction ixs generalizing row with
  | nil => rfl
  | cons i rest ih => rw [List.foldl_cons, ih, List.length_set]

/-- Cell view of writing one value at a list of indices: an in-range cell
holds the value iff its index was in the list, otherwise it is untouched. -/
theorem foldl_set_getElem? (ixs : List Nat) (row : List Nat) (v b : Nat)
    (hb : b < row.length) :
    (ixs.foldl (fun r i => r.set i v) row)[b]? =
      if b ∈ ixs then some v else row[b]? := by
  induction ixs generalizing row with
  | nil => simp
  | cons i rest ih =>
    rw [List.foldl_cons, ih _ (by rwa [List.length_set]),
        List.getElem?_set]
    by_cases hmem : b ∈ rest
    · simp [hmem]
    · by_cases hib : i = b
      · subst hib
        simp [hmem, hb]
      · simp [hmem, hib, Ne.symm hib, List.mem_cons]

/-- The index set of the Rust loop `for idx in start..end`, as used by the
range arm of the builder. -/
theorem mem_range_sub (start stop b : Nat) :
    b ∈ List.range' start (stop - start) ↔ start ≤ b ∧ b < stop := by
  rw [List.mem_range'_1]
  omega

/-- `applyInput` preserves the row length. -/
theorem applyInput_length (row : List Nat) (input : InputDefinition)
    (t : Nat) : (applyInput row input t).length = row.length := by
  cases input with
  | Specific idx => rw [applyInput, List.length_set]
  | Range start stop => rw [applyInput, List.length_set, foldl_set_length]

/-- Cell view of one input write: an in-range cell holds the packed value
iff the input pattern covers its byte, otherwise it is untouched. -/
theorem applyInput_getElem? (row : List Nat) (input : InputDefinition)
    (t b : Nat) (hb : b < row.length) :
    (applyInput row input t)[b]? =
      if input.covers b then some t else row[b]? := by
  cases input with
  | Specific idx =>
    rw [applyInput, List.getElem?_set]
    simp only [InputDefinition.covers, beq_iff_eq]
    by_cases h : b = idx
    · subst h
      simp [hb]
    · simp [h, Ne.symm h]
  | Range start stop =>
    rw [applyInput, List.getElem?_set,
        foldl_set_getElem? _ _ _ _ hb, foldl_set_length]
    simp only [InputDefinition.covers, Bool.or_eq_true, Bool.and_eq_true,
      decide_eq_true_eq, beq_iff_eq, mem_range_sub]
    split_ifs <;> first | rfl | (exfalso; omega)

/-- `applyMapping` preserves the row length. -/
theorem foldl_applyMapping_length (ms : List InputMapping)
    (row : List Nat) : (ms.foldl applyMapping row).length = row.length := by
  induction ms generalizing row with
  | nil => rfl
  | cons m rest ih =>
    rw [List.foldl_cons, ih, applyMapping, applyInput_length]

/-- Cell view of a whole mapping list: folding the mappings over a row
acts on each in-range cell exactly as `ruleFold` acts on its value. -/
theorem foldl_applyMapping_getElem? (ms : List InputMapping)
    (row : List Nat) (b : Nat) (hb : b < row.length) :
    (ms.foldl applyMapping row)[b]? = ms.foldl (ruleFold b) row[b]? := by
  induction ms generalizing row with
  | nil => rfl
  | cons m rest ih =>
    rw [List.foldl_cons, List.foldl_cons,
        ih _ (by rwa [applyMapping, applyInput_length])]
    congr 1
    rw [applyMapping, applyInput_getElem? _ _ _ _ hb, ruleFold]

/-- The all-zero initial table has the fixed dimensions. -/
theorem shaped_init : Shaped (List.replicate 16 (List.replicate 256 0)) := by
  constructor
  · rw [List.length_replicate]
  · intro row hrow
    rw [List.eq_of_mem_replicate hrow, List.length_replicate]

/-- In a well-shaped table, looking up a row below 16 succeeds and the row
has 256 cells. -/
theorem shaped_getD (table : List (List Nat)) (h : Shaped table) (s : Nat)
    (hs : s < 16) :
    table[s]? = some (table.getD s []) ∧ (table.getD s []).length = 256 := by
  obtain ⟨hlen, hrows⟩ := h
  have hs' : s < table.length := by omega
  rw [List.getD_eq_getElem?_getD, List.getElem?_eq_getElem hs']
  exact ⟨rfl, hrows _ (List.getElem_mem hs')⟩

/-- `processDef` preserves the fixed dimensions. -/
theorem shaped_processDef (table : List (List Nat)) (h : Shaped table)
    (d : TableDefinition) : Shaped (processDef table d) := by
  obtain ⟨hrow, hlen⟩ :=
    shaped_getD table h d.state.code (state_code_lt d.state)
  constructor
  · rw [processDef, List.length_set]
    exact h.1
  · intro row hmem
    rcases List.mem_or_eq_of_mem_set hmem with hmem' | heq
    · exact h.2 row hmem'
    · rw [heq, foldl_applyMapping_length, hlen]

/-- Cell view of one outer-loop step: a definition for state `s` folds its
mappings over the cell's value, any other definition leaves the cell
alone. -/
theorem processDef_cell (table : List (List Nat)) (d : TableDefinition)
    (s b : Nat) (h : Shaped table) (hs : s < 16) (hb : b < 256) :
    cellOf (processDef table d) s b = defFold s b (cellOf table s b) d := by
  by_cases hc : d.state.code = s
  · obtain ⟨hrow, hlen⟩ := shaped_getD table h s hs
    have hs' : s < table.length := by rw [h.1]; exact hs
    have hb' : b < (table.getD s []).length := by rw [hlen]; exact hb
    rw [cellOf, processDef, hc, List.getElem?_set, if_pos rfl, if_pos hs',
        Option.some_bind, foldl_applyMapping_getElem? _ _ _ hb',
        defFold, if_pos hc, cellOf, hrow, Option.some_bind]
  · rw [cellOf, processDef, List.getElem?_set, if_neg hc, defFold,
        if_neg hc, cellOf]

/-- Cell view of the outer loop: folding definitions over a well-shaped
table acts on each cell exactly as `defFold` acts on its value. -/
theorem foldl_processDef_cell (defs : List TableDefinition)
    (table : List (List Nat)) (s b : Nat) (h : Shaped table) (hs : s < 16)
    (hb : b < 256) :
    cellOf (defs.foldl processDef table) s b =
      defs.foldl (defFold s b) (cellOf table s b) := by
  induction defs generalizing table with
  | nil => rfl
  | cons d rest ih =>
    rw [List.foldl_cons, List.foldl_cons,
        ih _ (shaped_processDef table h d),
        processDef_cell table d s b h hs hb]

/-- Folding definitions preserves the fixed dimensions. -/
theorem foldl_processDef_shaped (defs : List TableDefinition)
    (table : List (List Nat)) (h : Shaped table) :
    Shaped (defs.foldl processDef table) := by
  induction defs generalizing table with
  | nil => exact h
  | cons d rest ih =>
    rw [List.foldl_cons]
    exact ih _ (shaped_processDef table h d)

/-- The built table always has the fixed dimensions. -/
theorem build_state_tables_shaped (defs : List TableDefinition) :
    Shaped (build_state_tables defs) :=
  foldl_processDef_shaped defs _ shaped_init

/-- Characterization of every cell of the built table: row `s`, column `b`
holds the result of replaying, in declaration order, every rule of every
definition for state `s` that covers byte `b`, starting from 0. -/
theorem build_state_tables_cell (defs : List TableDefinition) (s b : Nat)
    (hs : s < 16) (hb : b < 256) :
    cellOf (build_state_tables defs) s b =
      defs.foldl (defFold s b) (some 0) := by
  rw [build_state_tables,
      foldl_processDef_cell defs _ s b shaped_init hs hb]
  congr 1
  rw [cellOf, List.getElem?_replicate, if_pos hs, Option.some_bind,
      List.getElem?_replicate, if_pos hb]

/-- Mappings none of which cover `b` leave the cell value alone. -/
theorem ruleFold_no_cover (ms : List InputMapping) (b : Nat)
    (acc : Option Nat) (h : ∀ m ∈ ms, m.input.covers b = false) :
    ms.foldl (ruleFold b) acc = acc := by
  induction ms generalizing acc with
  | nil => rfl
  | cons m rest ih =>
    rw [List.foldl_cons, ruleFold, h m (List.mem_cons_self m rest),
        if_neg (by simp)]
    exact ih _ fun m' hm' => h m' (List.mem_cons_of_mem _ hm')

/-- Definitions none of whose rules for state `s` cover `b` leave the cell
value alone. -/
theorem defFold_no_cover (post : List TableDefinition) (s b : Nat)
    (acc : Option Nat)
    (h : ∀ d ∈ post, d.state.code = s →
      ∀ m ∈ d.mappings, m.input.covers b = false) :
    post.foldl (defFold s b) acc = acc := by
  induction post generalizing acc with
  | nil => rfl
  | cons d rest ih =>
    rw [List.foldl_cons, defFold]
    have step : (if d.state.code = s then
        d.mappings.foldl (ruleFold b) acc else acc) = acc := by
      by_cases hc : d.state.code = s
      · rw [if_pos hc,
            ruleFold_no_cover _ _ _ (h d (List.mem_cons_self d rest) hc)]
      · rw [if_neg hc]
    rw [step]
    exact ih _ fun d' hd' => h d' (List.mem_cons_of_mem _ hd')

/-- The tuple loop of `from_expr` skips every element that is not a path:
the accumulated action and state are unchanged by such elements. -/
theorem from_expr_tuple_loop_no_path (es : List VtExpr)
    (h : ∀ e ∈ es, e.isPath = false) (a : Option Action)
    (s : Option State) : from_expr_tuple_loop es a s = .ok (a, s) := by
  induction es with
  | nil => rfl
  | cons e rest ih =>
    cases e with
    | path p =>
      have := h _ (List.mem_cons_self _ rest)
      simp [VtExpr.isPath] at this
    | tup es' =>
      rw [from_expr_tuple_loop]
      exact ih fun e' he' => h e' (List.mem_cons_of_mem _ he')
    | other =>
      rw [from_expr_tuple_loop]
      exact ih fun e' he' => h e' (List.mem_cons_of_mem _ he')

/-- Sanity check mirroring the `pack_u8` unit test of vt.rs:
`(CsiParam, Collect)` packs to `0x24`. -/
theorem pack_u8_csi_param_collect :
    (Transition.stateAction State.CsiParam Action.Collect).pack_u8 = 0x24 := by
  decide

/-- Sanity check: the canonical path strings resolve back to their
symbols through `state_from_str` and `action_from_str`. -/
theorem path_str_resolves :
    (∀ s : State, state_from_str s.path_str = some s) ∧
    (∀ a : Action, action_from_str a.path_str = some a) := by
  constructor
  · intro s; cases s <;> rfl
  · intro a; cases a <;> rfl

/-- Claim C1: a rule with a Range pattern `start..=end` with
`start ≤ end` writes its packed transition byte into exactly the cells
`start..=end` of the state's row — both endpoints covered, every covered
cell holding the same encoded value, every other cell untouched. -/
theorem c1_range_inclusive_writes (row : List Nat) (m : InputMapping)
    (start stop b : Nat) (hm : m.input = InputDefinition.Range start stop)
    (hrow : row.length = 256) (hle : start ≤ stop) (hstop : stop < 256)
    (hb : b < 256) :
    (applyMapping row m)[b]? =
      if start ≤ b ∧ b ≤ stop then some m.transition.pack_u8
      else row[b]? := by
  rw [applyMapping, hm, applyInput_getElem? _ _ _ _ (by omega)]
  simp only [InputDefinition.covers, Bool.or_eq_true, Bool.and_eq_true,
    decide_eq_true_eq, beq_iff_eq]
  split_ifs <;> first | rfl | (exfalso; omega)

/-- Witness for C1: the range `0x30..=0x39` writes its value at byte
`0x35` of an all-zero row. -/
theorem c1_witness :
    (applyMapping (List.replicate 256 0)
        ⟨InputDefinition.Range 48 57, Transition.action Action.Param⟩)[53]? =
      some (Transition.action Action.Param).pack_u8 :=
  c1_range_inclusive_writes (List.replicate 256 0)
    ⟨InputDefinition.Range 48 57, Transition.action Action.Param⟩
    48 57 53 rfl (List.length_replicate 256 0) (by decide) (by decide)
    (by decide)

/-- Claim C2: table building is last-write-wins — with the definitions
split as `pre ++ d :: post` and the mappings of `d` split as
`mpre ++ m :: mpost`, if `d` is scoped to state `s`, `m` covers byte `b`,
and no later rule for state `s` (in `mpost` or in `post`) covers `b`,
then cell `[s][b]` of the built table is exactly the packed byte of `m`,
whatever earlier rules covered; blocks for the same state are cumulative
in declaration order. -/
theorem c2_last_write_wins (pre post : List TableDefinition)
    (d : TableDefinition) (mpre mpost : List InputMapping)
    (m : InputMapping) (s b : Nat) (hs : s < 16) (hb : b < 256)
    (hcode : d.state.code = s)
    (hsplit : d.mappings = mpre ++ m :: mpost)
    (hcov : m.input.covers b = true)
    (hmpost : ∀ m' ∈ mpost, m'.input.covers b = false)
    (hpost : ∀ d' ∈ post, d'.state.code = s →
      ∀ m' ∈ d'.mappings, m'.input.covers b = false) :
    cellOf (build_state_tables (pre ++ d :: post)) s b =
      some m.transition.pack_u8 := by
  rw [build_state_tables_cell _ _ _ hs hb, List.foldl_append,
      List.foldl_cons, defFold_no_cover post s b _ hpost, defFold,
      if_pos hcode, hsplit, List.foldl_append, List.foldl_cons,
      ruleFold_no_cover mpost b _ hmpost, ruleFold, if_pos hcov]

/-- Witness for C2: a catch-all range `0..=255` mapped to `Ignore`
followed by a specific rule for `0x1B` mapped to `Execute`, both in one
`Ground` block; the cell for `0x1B` holds the `Execute` encoding. -/
theorem c2_witness :
    cellOf
      (build_state_tables
        [⟨State.Ground,
          [⟨InputDefinition.Range 0 255, Transition.action Action.Ignore⟩,
           ⟨InputDefinition.Specific 27, Transition.action Action.Execute⟩]⟩])
      12 27 = some (Transition.action Action.Execute).pack_u8 :=
  c2_last_write_wins [] []
    ⟨State.Ground,
      [⟨InputDefinition.Range 0 255, Transition.action Action.Ignore⟩,
       ⟨InputDefinition.Specific 27, Transition.action Action.Execute⟩]⟩
    [⟨InputDefinition.Range 0 255, Transition.action Action.Ignore⟩] []
    ⟨InputDefinition.Specific 27, Transition.action Action.Execute⟩
    12 27 (by decide) (by decide) rfl rfl (by decide) (by simp) (by simp)

/-- Claim C3: packing a transition carrying both a state and an action
and then decoding with `code & 0x0F` and `(code >> 4) & 0x0F` round-trips
exactly, for every one of the 16 × 16 pairs: state in the low nibble,
action in the high nibble. -/
theorem c3_pack_roundtrip :
    ∀ (s : State) (a : Action),
      (Transition.stateAction s a).pack_u8 &&& 0x0F = s.code ∧
      ((Transition.stateAction s a).pack_u8 >>> 4) &&& 0x0F = a.code := by
  decide

/-- Claim C4: a state-only transition packs with high nibble (action
code) 0, and an action-only transition packs with low nibble (state
code) 0, which is the default state's numeric code. -/
theorem c4_default_nibbles :
    ∀ (s : State) (a : Action),
      ((Transition.state s).pack_u8 >>> 4) &&& 0x0F = 0 ∧
      (Transition.action a).pack_u8 &&& 0x0F = 0 ∧
      State.Anywhere.code = 0 := by
  decide

/-- Counterexample to C5: a tuple supplying two State symbols is not
rejected — `from_expr` returns `Ok` (the second state), with no
`AmbiguousTransition` error. -/
theorem c5_counterexample :
    Transition.from_expr
      (VtExpr.tup [VtExpr.path "State::Ground", VtExpr.path "State::Escape"]) =
    Except.ok (Transition.state State.Escape) := rfl

/-- Amended Claim C5: a tuple supplying two symbols of the same family
does not fail; each symbol simply overwrites the previously seen symbol
of its family, so the last state and/or last action wins. -/
theorem c5_same_family_overwrites :
    (∀ s1 s2 : State,
      Transition.from_expr
        (VtExpr.tup [VtExpr.path s1.path_str, VtExpr.path s2.path_str]) =
      Except.ok (Transition.state s2)) ∧
    (∀ a1 a2 : Action,
      Transition.from_expr
        (VtExpr.tup [VtExpr.path a1.path_str, VtExpr.path a2.path_str]) =
      Except.ok (Transition.action a2)) := by
  constructor
  · intro s1 s2
    cases s1 <;> cases s2 <;> rfl
  · intro a1 a2
    cases a1 <;> cases a2 <;> rfl

/-- Counterexample to C6: a Range pattern with `start > end` is accepted
by `from_pat` with no `InvalidInputPattern` error, and the builder then
produces a table cell from the rule (cell `[Ground][3]` holds the packed
transition). -/
theorem c6_counterexample :
    InputDefinition.from_pat (VtPat.range 5 3) =
      Except.ok (InputDefinition.Range 5 3) ∧
    cellOf
      (build_state_tables
        [⟨State.Ground, [⟨InputDefinition.Range 5 3,
          Transition.state State.Escape⟩]⟩])
      12 3 = some (Transition.state State.Escape).pack_u8 := by
  constructor
  · rfl
  · set_option maxRecDepth 100000 in rfl

/-- Amended Claim C6: a Range pattern whose start exceeds its end is not
rejected — `from_pat` accepts every integer range (truncating each bound
to `u8`), and the `InvalidInputPattern` error arises only for a pattern
that is neither an integer literal nor a range. -/
theorem c6_range_not_validated :
    (∀ start stop : Nat,
      InputDefinition.from_pat (VtPat.range start stop) =
        Except.ok (InputDefinition.Range (start % 256) (stop % 256))) ∧
    InputDefinition.from_pat VtPat.other =
      Except.error "expected literal or range expression" :=
  ⟨fun _ _ => rfl, rfl⟩

/-- Claim C7: for every definition list the built table has exactly 16
rows of exactly 256 columns, and every cell never addressed by any rule
holds 0, which decodes to the default state code 0 and the default
action code 0. -/
theorem c7_shape_and_default_fill (defs : List TableDefinition)
    (s b : Nat) (hs : s < 16) (hb : b < 256)
    (huntouched : ∀ d ∈ defs, d.state.code = s →
      ∀ m ∈ d.mappings, m.input.covers b = false) :
    (build_state_tables defs).length = 16 ∧
    (∀ row ∈ build_state_tables defs, row.length = 256) ∧
    cellOf (build_state_tables defs) s b = some 0 ∧
    0 &&& 0x0F = State.Anywhere.code ∧
    (0 >>> 4) &&& 0x0F = Action.None.code := by
  refine ⟨(build_state_tables_shaped defs).1,
    (build_state_tables_shaped defs).2, ?_, by decide, by decide⟩
  rw [build_state_tables_cell _ _ _ hs hb,
      defFold_no_cover defs s b _ huntouched]

/-- Witness for C7: the empty definition list at cell (0, 0). -/
theorem c7_witness :
    (build_state_tables []).length = 16 ∧
    (∀ row ∈ build_state_tables [], row.length = 256) ∧
    cellOf (build_state_tables []) 0 0 = some 0 ∧
    0 &&& 0x0F = State.Anywhere.code ∧
    (0 >>> 4) &&& 0x0F = Action.None.code :=
  c7_shape_and_default_fill [] 0 0 (by decide) (by decide) (by simp)

/-- Counterexample to C8: a tuple containing an element of another shape
(a non-path expression) is not rejected — the element is ignored and
`from_expr` returns `Ok`. -/
theorem c8_counterexample :
    Transition.from_expr
      (VtExpr.tup [VtExpr.other, VtExpr.path "State::Ground"]) =
    Except.ok (Transition.state State.Ground) := rfl

/-- Amended Claim C8: an expression that is neither a path nor a tuple
fails with the `InvalidTransition` error, and a tuple fails with that
error when it supplies no symbolic (path) element at all; a non-path
element inside a tuple is silently ignored rather than rejected. -/
theorem c8_nonpath_ignored :
    Transition.from_expr VtExpr.other =
      Except.error "expected Action and/or State" ∧
    (∀ es : List VtExpr, (∀ e ∈ es, e.isPath = false) →
      Transition.from_expr (VtExpr.tup es) =
        Except.error "expected Action and/or State") ∧
    (∀ es : List VtExpr,
      Transition.from_expr (VtExpr.tup (VtExpr.other :: es)) =
        Transition.from_expr (VtExpr.tup es)) := by
  refine ⟨rfl, ?_, fun es => rfl⟩
  intro es h
  rw [Transition.from_expr, from_expr_tuple_loop_no_path es h]

/-- Witness for C8: the singleton tuple holding one non-path element is
rejected with the `InvalidTransition` error. -/
theorem c8_witness :
    Transition.from_expr (VtExpr.tup [VtExpr.other]) =
      Except.error "expected Action and/or State" :=
  c8_nonpath_ignored.2.1 [VtExpr.other]
    (by intro e he; rw [List.mem_singleton] at he; rw [he]; rfl)

/-- Claim C9: table building is deterministic — building twice from the
same parsed definitions yields identical tables. -/
theorem c9_deterministic (defs1 defs2 : List TableDefinition)
    (h : defs1 = defs2) :
    build_state_tables defs1 = build_state_tables defs2 := by
  rw [h]

/-- Witness for C9: two builds of the same definition list agree. -/
theorem c9_witness :
    build_state_tables [] = build_state_tables [] :=
  c9_deterministic [] [] rfl

/-- Claim C10: a Range pattern with `start > end` does not make the
builder fail or go out of bounds — the forward loop `start..end` covers
no bytes (its index list is empty) and exactly the single cell `end` is
written with the rule's packed byte, every other cell untouched. -/
theorem c10_inverted_range_single_write (row : List Nat)
    (m : InputMapping) (start stop b : Nat)
    (hm : m.input = InputDefinition.Range start stop)
    (hrow : row.length = 256) (hgt : stop < start) (hstop : stop < 256)
    (hb : b < 256) :
    List.range' start (stop - start) = [] ∧
    (applyMapping row m)[b]? =
      if b = stop then some m.transition.pack_u8 else row[b]? := by
  constructor
  · have h0 : stop - start = 0 := by omega
    rw [h0, List.range']
  · rw [applyMapping, hm, applyInput_getElem? _ _ _ _ (by omega)]
    simp only [InputDefinition.covers, Bool.or_eq_true, Bool.and_eq_true,
      decide_eq_true_eq, beq_iff_eq]
    split_ifs <;> first | rfl | (exfalso; omega)

/-- Witness for C10: the inverted range `5..3` writes only cell 3. -/
theorem c10_witness :
    List.range' 5 (3 - 5) = [] ∧
    (applyMapping (List.replicate 256 0)
        ⟨InputDefinition.Range 5 3, Transition.state State.Escape⟩)[3]? =
      some (Transition.state State.Escape).pack_u8 :=
  c10_inverted_range_single_write (List.replicate 256 0)
    ⟨InputDefinition.Range 5 3, Transition.state State.Escape⟩
    5 3 3 rfl (List.length_replicate 256 0) (by decide) (by decide)
    (by decide)

end Vt
